import Mathlib

/-!
Verification of the opencode-quota usage-tracking core against its
natural-language specification.

The development shallowly embeds the relevant source modules:
* `src/lib/cache.ts` — FetchCache: single-slot toast cache, in-flight
  deduplication and throttling (namespace `Cache`);
* `src/lib/qwen-local-quota.ts` — LocalQuotaCounter: durable UTC-day /
  rolling-window counter (namespace `Qwen`);
* `src/lib/opencode-db.ts` — MessageStore: read-only access to the
  embedded sessions/messages store (namespace `Store`);
* the UsageAggregator (`src/lib/quota-stats.ts`, modelled from the spec,
  namespace `Agg`).

Timestamps and other JS numbers are modelled as `Int` (all arithmetic in
the sources stays on integral millisecond values); percentages go through
`Rat` where the source divides.  Asynchronous module state is modelled by
explicit state passing: each cooperative atomic section of the source
becomes one Lean function on the state type.
-/

namespace Cache

/-- Embeds the `CachedToast` record of `src/lib/types.ts`:
a cached message together with the time it was stored. -/
structure CachedToast where
  message : String
  timestamp : Int
deriving Repr, DecidableEq

/-- Embeds the module-level mutable state of `src/lib/cache.ts`:
`cachedToast`, `inFlightPromise` (tracked as a Boolean marker: is some
fetch currently in flight?) and `lastFetchTime`. -/
structure CacheState where
  cachedToast : Option CachedToast
  inFlight : Bool
  lastFetchTime : Int
deriving Repr, DecidableEq

/-- The state produced by `clearCache()`. -/
def clearCache : CacheState := ⟨none, false, 0⟩

/-- Embeds `getCachedToast(minIntervalMs)`: returns the cached message
while `now - cached.timestamp < minIntervalMs`, else `null`.  The source
reads `Date.now()`; the model takes `now` explicitly.  The function only
reads the state, so it is pure by construction. -/
def getCachedToast (s : CacheState) (minIntervalMs now : Int) : Option String :=
  match s.cachedToast with
  | none => none
  | some c => if now - c.timestamp < minIntervalMs then some c.message else none

/-- Embeds `shouldFetch(minIntervalMs)`: `now - lastFetchTime >= minIntervalMs`. -/
def shouldFetch (s : CacheState) (minIntervalMs now : Int) : Bool :=
  decide (minIntervalMs ≤ now - s.lastFetchTime)

/-- Embeds `updateCache(message)`: overwrite the cache slot with the
message stamped at the current time. -/
def updateCache (s : CacheState) (message : String) (now : Int) : CacheState :=
  { s with cachedToast := some ⟨message, now⟩ }

/-- Outcome of the synchronous entry section of
`getOrFetchWithCacheControl` for one logical caller. -/
inductive EnterOutcome where
  /-- Step 1: the cache was fresh; the caller returns the cached message. -/
  | cachedHit (m : String)
  /-- Step 2: a fetch was already in flight; the caller awaits the shared promise. -/
  | joined
  /-- Step 3: within the throttle window with stale/empty cache; the caller
      returns the best-known message without fetching. -/
  | throttled (m : Option String)
  /-- Step 4: this caller started a new fetch (one execution of `fetchFn`). -/
  | started
deriving Repr, DecidableEq

/-- Embeds the synchronous prefix of `getOrFetchWithCacheControl` (lines
82–101 of `cache.ts`): cache check, in-flight check, throttle check and —
atomically with those checks, since no `await` separates them — recording
the fetch start time and installing the in-flight marker. -/
def enterStep (s : CacheState) (minIntervalMs now : Int) : CacheState × EnterOutcome :=
  match getCachedToast s minIntervalMs now with
  | some m => (s, .cachedHit m)
  | none =>
    if s.inFlight then
      (s, .joined)
    else if !shouldFetch s minIntervalMs now then
      (s, .throttled (s.cachedToast.map CachedToast.message))
    else
      ({ s with lastFetchTime := now, inFlight := true }, .started)

/-- How the `fetchFn` promise completes: a `{message, cache?}` value
(`cache` is `Option Bool` to model the optional field, defaulted to
`true` via `out.cache ?? true`), or a thrown exception (rejection). -/
inductive FetchOutput where
  | ok (message : Option String) (cache : Option Bool)
  | thrown
deriving Repr, DecidableEq

/-- What a caller awaiting the shared in-flight promise observes:
a resolved message (possibly `null`) or the propagated rejection. -/
inductive FetchValue where
  | ok (m : Option String)
  | err
deriving Repr, DecidableEq

/-- Embeds the completion section of `getOrFetchWithCacheControl` (the
body of the in-flight IIFE, lines 102–131): on `message == null` reset the
throttle clock and return null; on `cache == false` reset the throttle
clock and return the message uncached; otherwise persist `{message, now}`.
The `finally` clause clears the in-flight marker on every path, including
a thrown `fetchFn`, which the function does not catch. -/
def settle (s : CacheState) (out : FetchOutput) (now : Int) : CacheState × FetchValue :=
  match out with
  | .thrown => ({ s with inFlight := false }, .err)
  | .ok none _ => ({ s with lastFetchTime := 0, inFlight := false }, .ok none)
  | .ok (some m) cache =>
    if cache.getD true = false then
      ({ s with lastFetchTime := 0, inFlight := false }, .ok (some m))
    else
      ({ s with cachedToast := some ⟨m, now⟩, inFlight := false }, .ok (some m))

/-- The value a caller ultimately resolves to, given its entry outcome and
the completion value of the shared in-flight promise (if any). -/
def finalValue (o : EnterOutcome) (v : FetchValue) : FetchValue :=
  match o with
  | .cachedHit m => .ok (some m)
  | .throttled m => .ok m
  | .joined => v
  | .started => v

/-- Run the entry sections of a list of logical callers in arrival order
(cooperative scheduling: each synchronous section is atomic), threading
the module state and collecting each caller's entry outcome. -/
def enterAll (s : CacheState) (minIntervalMs : Int) : List Int → CacheState × List EnterOutcome
  | [] => (s, [])
  | t :: ts =>
    let p := enterStep s minIntervalMs t
    let q := enterAll p.1 minIntervalMs ts
    (q.1, p.2 :: q.2)

/-- Number of `fetchFn` executions among a list of entry outcomes. -/
def startedCount (os : List EnterOutcome) : Nat :=
  os.countP (fun o => match o with | .started => true | _ => false)

theorem enterStep_joined (s : CacheState) (minI t : Int)
    (hm : getCachedToast s minI t = none) (hf : s.inFlight = true) :
    enterStep s minI t = (s, .joined) := by
  unfold enterStep
  rw [hm, hf]
  simp

theorem enterStep_started (s : CacheState) (minI t : Int)
    (hm : getCachedToast s minI t = none) (hf : s.inFlight = false)
    (hth : minI ≤ t - s.lastFetchTime) :
    enterStep s minI t = ({ s with lastFetchTime := t, inFlight := true }, .started) := by
  unfold enterStep
  rw [hm, hf]
  simp [shouldFetch, hth]

theorem enterStep_throttled (s : CacheState) (minI t : Int)
    (hm : getCachedToast s minI t = none) (hf : s.inFlight = false)
    (hth : ¬ minI ≤ t - s.lastFetchTime) :
    enterStep s minI t = (s, .throttled (s.cachedToast.map CachedToast.message)) := by
  unfold enterStep
  rw [hm, hf]
  simp [shouldFetch, hth]

theorem getCachedToast_slot (c : Option CachedToast) (f f' : Bool)
    (l l' minI now : Int) :
    getCachedToast ⟨c, f, l⟩ minI now = getCachedToast ⟨c, f', l'⟩ minI now := rfl

theorem getCachedToast_stale_of_le (c : Option CachedToast) (f f' : Bool)
    (l l' minI t now : Int)
    (h : getCachedToast ⟨c, f, l⟩ minI t = none) (hle : t ≤ now) :
    getCachedToast ⟨c, f', l'⟩ minI now = none := by
  cases c with
  | none => rfl
  | some cc =>
    by_cases hage : t - cc.timestamp < minI
    · simp [getCachedToast, hage] at h
    · simp only [getCachedToast]
      rw [if_neg (by omega)]

theorem enterAll_inFlight (minI : Int) (ts : List Int) :
    ∀ s : CacheState, s.inFlight = true → s.cachedToast = none →
      enterAll s minI ts = (s, ts.map fun _ => .joined) := by
  induction ts with
  | nil => intro s _ _; simp [enterAll]
  | cons t ts ih =>
    intro s hf hc
    have hm : getCachedToast s minI t = none := by
      simp [getCachedToast, hc]
    simp only [enterAll, enterStep_joined s minI t hm hf, List.map]
    rw [ih s hf hc]

/-- C1: N ≥ 1 logical callers (arrival times `t :: ts`) enter
`getOrFetchWithCacheControl` while one slow `fetchFn` is in flight, under
the single-process cooperative model: starting from a quiescent state
(no in-flight fetch, empty cache slot, throttle window elapsed at the
first arrival), exactly one caller executes `fetchFn`, and every caller
resolves to the value of the one shared in-flight promise. -/
theorem getOrFetch_dedups_concurrent_callers
    (s0 : CacheState) (minI t tset : Int) (ts : List Int) (out : FetchOutput)
    (hflight : s0.inFlight = false) (hcache : s0.cachedToast = none)
    (hthrottle : minI ≤ t - s0.lastFetchTime) :
    startedCount (enterAll s0 minI (t :: ts)).2 = 1 ∧
    ∀ o ∈ (enterAll s0 minI (t :: ts)).2,
      finalValue o (settle (enterAll s0 minI (t :: ts)).1 out tset).2
        = (settle (enterAll s0 minI (t :: ts)).1 out tset).2 := by
  have hstep : enterStep s0 minI t
      = ({ s0 with lastFetchTime := t, inFlight := true }, .started) :=
    enterStep_started s0 minI t (by simp [getCachedToast, hcache]) hflight hthrottle
  have hrest := enterAll_inFlight minI ts
    { s0 with lastFetchTime := t, inFlight := true } rfl hcache
  have hall : enterAll s0 minI (t :: ts)
      = ({ s0 with lastFetchTime := t, inFlight := true },
         .started :: ts.map fun _ => .joined) := by
    simp only [enterAll, hstep, hrest]
  rw [hall]
  constructor
  · simp [startedCount, List.countP_eq_zero]
  · intro o ho
    rcases List.mem_cons.mp ho with h | h
    · subst h; rfl
    · rcases List.mem_map.mp h with ⟨_, _, rfl⟩; rfl

/-- Closed witness for C1: three concurrent callers, one slow fetch
resolving to "result"; exactly one execution and all three callers
resolve to the shared value. -/
theorem getOrFetch_dedups_concurrent_callers_witness :
    startedCount (enterAll ⟨none, false, 0⟩ 60000 [60000, 60001, 60002]).2 = 1 ∧
    ∀ o ∈ (enterAll ⟨none, false, 0⟩ 60000 [60000, 60001, 60002]).2,
      finalValue o
          (settle (enterAll ⟨none, false, 0⟩ 60000 [60000, 60001, 60002]).1
            (.ok (some "result") none) 60010).2
        = (settle (enterAll ⟨none, false, 0⟩ 60000 [60000, 60001, 60002]).1
            (.ok (some "result") none) 60010).2 :=
  getOrFetch_dedups_concurrent_callers ⟨none, false, 0⟩ 60000 60000 60010
    [60001, 60002] (.ok (some "result") none) rfl rfl (by decide)

/-- C7: frame conditions of fetch completion in
`getOrFetchWithCacheControl`: a `message == null` completion resets the
throttle clock to 0 and returns null leaving the cache slot unchanged; a
`cacheable == false` completion returns the message, leaves the cache
slot unchanged and resets the throttle clock (so two sequential calls
from a clean state both execute `fetchFn`); every other completion
persists `{message, now}` as the new cache entry. -/
theorem cache_control_completion_frame :
    (∀ (s : CacheState) (c : Option Bool) (now : Int),
      (settle s (.ok none c) now).1.cachedToast = s.cachedToast ∧
      (settle s (.ok none c) now).1.lastFetchTime = 0 ∧
      (settle s (.ok none c) now).2 = .ok none) ∧
    (∀ (s : CacheState) (m : String) (now : Int),
      (settle s (.ok (some m) (some false)) now).1.cachedToast = s.cachedToast ∧
      (settle s (.ok (some m) (some false)) now).1.lastFetchTime = 0 ∧
      (settle s (.ok (some m) (some false)) now).2 = .ok (some m)) ∧
    (∀ (s : CacheState) (m : String) (c : Option Bool) (now : Int),
      c.getD true = true →
      (settle s (.ok (some m) c) now).1.cachedToast = some ⟨m, now⟩ ∧
      (settle s (.ok (some m) c) now).2 = .ok (some m)) ∧
    (∀ (minI t1 t1' t2 : Int) (m : String),
      minI ≤ t1 → minI ≤ t2 →
      (enterStep clearCache minI t1).2 = .started ∧
      (enterStep
        (settle (enterStep clearCache minI t1).1 (.ok (some m) (some false)) t1').1
        minI t2).2 = .started) := by
  refine ⟨?_, ?_, ?_, ?_⟩
  · intro s c now; simp [settle]
  · intro s m now; simp [settle]
  · intro s m c now hc; simp [settle, hc]
  · intro minI t1 t1' t2 m h1 h2
    have e1 : enterStep clearCache minI t1
        = (⟨none, true, t1⟩, .started) :=
      enterStep_started clearCache minI t1 rfl rfl (by simp [clearCache]; omega)
    refine ⟨by rw [e1], ?_⟩
    rw [e1]
    have e2 : settle (⟨none, true, t1⟩ : CacheState) (.ok (some m) (some false)) t1'
        = (⟨none, false, 0⟩, .ok (some m)) := by
      simp [settle]
    rw [e2]
    have e3 : enterStep (⟨none, false, 0⟩ : CacheState) minI t2
        = (⟨none, true, t2⟩, .started) :=
      enterStep_started ⟨none, false, 0⟩ minI t2 rfl rfl (by simp; omega)
    rw [e3]

/-- Closed witness for C7's hypotheses: the non-null cacheable completion
persists the cache entry, and two sequential calls with a non-cacheable
result both start a fetch. -/
theorem cache_control_completion_frame_witness :
    (Option.getD (some true) true = true ∧
      ((settle ⟨none, true, 5⟩ (.ok (some "msg") (some true)) 7).1.cachedToast
          = some ⟨"msg", 7⟩ ∧
        (settle ⟨none, true, 5⟩ (.ok (some "msg") (some true)) 7).2 = .ok (some "msg"))) ∧
    ((10 : Int) ≤ 100 ∧ (10 : Int) ≤ 200 ∧
      ((enterStep clearCache 10 100).2 = .started ∧
        (enterStep
          (settle (enterStep clearCache 10 100).1 (.ok (some "err") (some false)) 101).1
          10 200).2 = .started)) :=
  ⟨⟨rfl, cache_control_completion_frame.2.2.1 ⟨none, true, 5⟩ "msg" (some true) 7 rfl⟩,
   by decide,
   by decide,
   cache_control_completion_frame.2.2.2 10 100 101 200 "err" (by decide) (by decide)⟩

/-- C8: `getCachedToast(minIntervalMs)` returns the payload last stored
by `updateCache` exactly while the entry's age is strictly below
`minIntervalMs`, and null at or beyond that age or on an empty slot; it
is a pure read of the cache state (a function of the state that returns
no new state). -/
theorem getCachedToast_boundary_exact :
    (∀ (s : CacheState) (m : String) (t minI now : Int),
      getCachedToast (updateCache s m t) minI now
        = if now - t < minI then some m else none) ∧
    (∀ (inFlight : Bool) (lastFetch minI now : Int),
      getCachedToast ⟨none, inFlight, lastFetch⟩ minI now = none) := by
  constructor
  · intro s m t minI now
    simp [getCachedToast, updateCache]
  · intro inFlight lastFetch minI now
    simp [getCachedToast]

/-- C10: a thrown `fetchFn` rejects the shared in-flight promise: every
joined caller observes the rejection, the in-flight marker is still
cleared, the cache slot is unchanged, and `lastFetchTime` keeps the
failed fetch's start time — so any later call within `minIntervalMs` of
that start is throttled (no `fetchFn` execution) and returns the stale
cached message or null. -/
theorem thrown_fetch_keeps_throttle
    (s0 : CacheState) (minI t tset now : Int) (v : FetchValue)
    (hflight : s0.inFlight = false)
    (hmiss : getCachedToast s0 minI t = none)
    (hthrottle : minI ≤ t - s0.lastFetchTime)
    (hafter : t ≤ now) (hwithin : now - t < minI) :
    (enterStep s0 minI t).2 = .started ∧
    (settle (enterStep s0 minI t).1 .thrown tset).2 = .err ∧
    (settle (enterStep s0 minI t).1 .thrown tset).1.inFlight = false ∧
    (settle (enterStep s0 minI t).1 .thrown tset).1.cachedToast = s0.cachedToast ∧
    (settle (enterStep s0 minI t).1 .thrown tset).1.lastFetchTime = t ∧
    (∀ t' : Int, getCachedToast s0 minI t' = none →
      (enterStep (enterStep s0 minI t).1 minI t').2 = .joined ∧
      finalValue .joined FetchValue.err = .err) ∧
    (enterStep (settle (enterStep s0 minI t).1 .thrown tset).1 minI now).2
      = .throttled (s0.cachedToast.map CachedToast.message) ∧
    finalValue (enterStep (settle (enterStep s0 minI t).1 .thrown tset).1 minI now).2 v
      = .ok (s0.cachedToast.map CachedToast.message) := by
  obtain ⟨c0, f0, l0⟩ := s0
  simp only at hflight hmiss hthrottle
  subst hflight
  have e1 : enterStep ⟨c0, false, l0⟩ minI t = (⟨c0, true, t⟩, .started) :=
    enterStep_started ⟨c0, false, l0⟩ minI t hmiss rfl hthrottle
  rw [e1]
  have e2 : settle (⟨c0, true, t⟩ : CacheState) .thrown tset
      = (⟨c0, false, t⟩, .err) := by
    simp [settle]
  rw [e2]
  have hmiss_now : getCachedToast ⟨c0, false, t⟩ minI now = none :=
    getCachedToast_stale_of_le c0 false false l0 t minI t now hmiss hafter
  have e3 : enterStep (⟨c0, false, t⟩ : CacheState) minI now
      = (⟨c0, false, t⟩, .throttled (c0.map CachedToast.message)) :=
    enterStep_throttled ⟨c0, false, t⟩ minI now hmiss_now rfl (by simp; omega)
  refine ⟨rfl, rfl, rfl, rfl, rfl, ?_, ?_, ?_⟩
  · intro t' hm'
    have hm'' : getCachedToast ⟨c0, true, t⟩ minI t' = none := by
      rw [getCachedToast_slot c0 true false t l0 minI t']
      exact hm'
    exact ⟨by rw [enterStep_joined ⟨c0, true, t⟩ minI t' hm'' rfl], rfl⟩
  · rw [e3]
  · rw [e3]; rfl

/-- Closed witness for C10: a fetch started at t=60000 from a clean
state throws; a retry at t=90000 (within the 60000 ms window of the
failed start) is throttled and yields null. -/
theorem thrown_fetch_keeps_throttle_witness :
    (enterStep clearCache 60000 60000).2 = .started ∧
    (settle (enterStep clearCache 60000 60000).1 .thrown 60010).2 = .err ∧
    (settle (enterStep clearCache 60000 60000).1 .thrown 60010).1.inFlight = false ∧
    (settle (enterStep clearCache 60000 60000).1 .thrown 60010).1.cachedToast
      = clearCache.cachedToast ∧
    (settle (enterStep clearCache 60000 60000).1 .thrown 60010).1.lastFetchTime = 60000 ∧
    (∀ t' : Int, getCachedToast clearCache 60000 t' = none →
      (enterStep (enterStep clearCache 60000 60000).1 60000 t').2 = .joined ∧
      finalValue .joined FetchValue.err = .err) ∧
    (enterStep (settle (enterStep clearCache 60000 60000).1 .thrown 60010).1
        60000 90000).2
      = .throttled (clearCache.cachedToast.map CachedToast.message) ∧
    finalValue
        (enterStep (settle (enterStep clearCache 60000 60000).1 .thrown 60010).1
          60000 90000).2 FetchValue.err
      = .ok (clearCache.cachedToast.map CachedToast.message) :=
  thrown_fetch_keeps_throttle clearCache 60000 60000 60010 90000 FetchValue.err
    rfl rfl (by decide) (by decide) (by decide)

end Cache

namespace Qwen

/-- Constant `RPM_WINDOW_MS` of `qwen-local-quota.ts`. -/
def RPM_WINDOW_MS : Int := 60000

/-- Constant `MAX_RECENT_TIMESTAMPS` of `qwen-local-quota.ts`. -/
def MAX_RECENT_TIMESTAMPS : Nat := 300

/-- Constant `QWEN_DAILY_LIMIT` of `qwen-local-quota.ts`. -/
def QWEN_DAILY_LIMIT : Int := 1000

/-- Constant `QWEN_RPM_LIMIT` of `qwen-local-quota.ts`. -/
def QWEN_RPM_LIMIT : Int := 60

/-- Milliseconds per UTC day (Unix time has no leap seconds). -/
def msPerDay : Int := 86400000

/-- Civil (proleptic Gregorian) date of a day number counted from
1970-01-01, embedding the date part of the JS `Date` library (the
standard days-to-civil algorithm).  Returns (year, month 1..12, day). -/
def civilFromDays (z0 : Int) : Int × Nat × Nat :=
  let z := z0 + 719468
  let era := z / 146097
  let doe := (z - era * 146097).toNat
  let yoe := (doe - doe / 1460 + doe / 36524 - doe / 146096) / 365
  let y := era * 400 + (yoe : Int)
  let doy := doe - (365 * yoe + yoe / 4 - yoe / 100)
  let mp := (5 * doy + 2) / 153
  let d := doy - (153 * mp + 2) / 5 + 1
  let m := if mp < 10 then mp + 3 else mp - 9
  (if m ≤ 2 then y + 1 else y, m, d)

/-- Left-pad a number with zeros to the given width. -/
def padNum (width n : Nat) : String :=
  let s := toString n
  String.mk (List.replicate (width - s.length) '0') ++ s

/-- Render a civil date as "YYYY-MM-DD". -/
def isoDate (y : Int) (m d : Nat) : String :=
  padNum 4 y.toNat ++ "-" ++ padNum 2 m ++ "-" ++ padNum 2 d

/-- Embeds `utcDayKey(tsMs)`: `new Date(tsMs).toISOString().slice(0, 10)`.
`Int` division (Euclidean) by the positive constant `msPerDay` is floor
division, matching the JS day-number computation. -/
def utcDayKey (tsMs : Int) : String :=
  let c := civilFromDays (tsMs / msPerDay)
  isoDate c.1 c.2.1 c.2.2

/-- Full ISO-8601 rendering "YYYY-MM-DDTHH:MM:SS.sssZ" of a millisecond
timestamp, embedding `new Date(ms).toISOString()`. -/
def isoOfMs (ms : Int) : String :=
  let c := civilFromDays (ms / msPerDay)
  let rem := (ms % msPerDay).toNat
  isoDate c.1 c.2.1 c.2.2 ++ "T" ++ padNum 2 (rem / 3600000) ++ ":" ++
    padNum 2 (rem % 3600000 / 60000) ++ ":" ++ padNum 2 (rem % 60000 / 1000) ++ "." ++
    padNum 3 (rem % 1000) ++ "Z"

/-- Embeds `nextUtcMidnightIso`'s `Date.UTC(getUTCFullYear(),
getUTCMonth(), getUTCDate() + 1, 0, 0, 0)`: the UTC midnight that starts
the day after the day containing `tsMs`. -/
def nextUtcMidnightMs (tsMs : Int) : Int := (tsMs / msPerDay + 1) * msPerDay

/-- Embeds `nextUtcMidnightIso(tsMs)`. -/
def nextUtcMidnightIso (tsMs : Int) : String := isoOfMs (nextUtcMidnightMs tsMs)

/-- Embeds the `QwenLocalQuotaStateFileV1` interface. -/
structure QwenLocalQuotaStateFileV1 where
  version : Nat
  utcDay : String
  dayCount : Int
  recent : List Int
  updatedAt : Int
deriving Repr, DecidableEq

/-- JS `arr.slice(-n)` for positive `n`: the last `n` elements (the whole
list when it is shorter). -/
def jsSliceLast (n : Nat) (l : List α) : List α := l.drop (l.length - n)

/-- The filter `(ts) => ts >= recentFloor && ts <= nowMs` used by
`applyUtcResetAndPrune`, with `recentFloor = nowMs - RPM_WINDOW_MS`. -/
def inWindow (nowMs ts : Int) : Bool :=
  decide (nowMs - RPM_WINDOW_MS ≤ ts) && decide (ts ≤ nowMs)

/-- Embeds `applyUtcResetAndPrune(state, nowMs)`: prune `recent` to the
rolling window and cap it to the last `MAX_RECENT_TIMESTAMPS` entries;
reset `dayCount` to 0 and adopt today's UTC day when the stored day
differs from today. -/
def applyUtcResetAndPrune (state : QwenLocalQuotaStateFileV1) (nowMs : Int) :
    QwenLocalQuotaStateFileV1 :=
  let today := utcDayKey nowMs
  let recent := jsSliceLast MAX_RECENT_TIMESTAMPS (state.recent.filter (inWindow nowMs))
  if state.utcDay ≠ today then
    ⟨1, today, 0, recent, nowMs⟩
  else
    ⟨1, today, state.dayCount, recent, nowMs⟩

/-- JS `Math.round`: round half toward positive infinity. -/
def jsRound (q : Rat) : Int := ⌊q + 1 / 2⌋

/-- Embeds `clampPercent(n)` of `format-utils.ts`:
`Math.max(0, Math.min(100, Math.round(n)))` (the `Number.isFinite` guard
is vacuous over `Rat`). -/
def clampPercent (q : Rat) : Int := max 0 (min 100 (jsRound q))

/-- Embeds `toPercentRemaining(used, limit)`. -/
def toPercentRemaining (used limit : Int) : Int :=
  if limit ≤ 0 then 0
  else clampPercent (((limit : Rat) - (used : Rat)) / (limit : Rat) * 100)

/-- The day dimension of `QwenComputedQuota` (reset time always present). -/
structure QwenDayQuota where
  used : Int
  limit : Int
  percentRemaining : Int
  resetTimeIso : String
deriving Repr, DecidableEq

/-- The rolling-window dimension of `QwenComputedQuota` (reset time optional). -/
structure QwenRpmQuota where
  used : Int
  limit : Int
  percentRemaining : Int
  resetTimeIso : Option String
deriving Repr, DecidableEq

/-- Embeds the `QwenComputedQuota` interface. -/
structure QwenComputedQuota where
  day : QwenDayQuota
  rpm : QwenRpmQuota
deriving Repr, DecidableEq

/-- Embeds `Math.min(...recent)` guarded by `recent.length > 0`. -/
def listMin : List Int → Option Int
  | [] => none
  | t :: ts => some (ts.foldl min t)

/-- Embeds `computeQwenQuota({state, nowMs, dayLimit, rpmLimit})` (limits
passed explicitly; the source defaults them to `QWEN_DAILY_LIMIT` /
`QWEN_RPM_LIMIT`). -/
def computeQwenQuota (state : QwenLocalQuotaStateFileV1)
    (nowMs dayLimit rpmLimit : Int) : QwenComputedQuota :=
  let st := applyUtcResetAndPrune state nowMs
  let dayUsed := max 0 st.dayCount
  let rpmUsed : Int := st.recent.length
  { day := ⟨dayUsed, dayLimit, toPercentRemaining dayUsed dayLimit, nextUtcMidnightIso nowMs⟩
    rpm := ⟨rpmUsed, rpmLimit, toPercentRemaining rpmUsed rpmLimit,
      (listMin st.recent).map (fun oldest => isoOfMs (oldest + RPM_WINDOW_MS))⟩ }

/-- Behavior of one invocation of the `rename` move primitive. -/
inductive MoveOutcome where
  | ok
  | err (code : String)
deriving Repr, DecidableEq

/-- The retryable error codes of `writeStateToDisk`:
`code === "EPERM" || code === "EEXIST" || code === "EACCES" || code === "ENOTEMPTY"`. -/
def retryableCode (code : String) : Bool :=
  code == "EPERM" || code == "EEXIST" || code == "EACCES" || code == "ENOTEMPTY"

/-- Observable effects of `writeStateToDisk`: how many times the move
primitive ran, whether the destination was deleted, what ended up at the
state path, and the propagated error (if any). -/
structure WriteEffects where
  moveCalls : Nat
  destDeleted : Bool
  persisted : Option QwenLocalQuotaStateFileV1
  result : Except String Unit
deriving Repr

/-- Embeds `writeStateToDisk(path, state)` against an environment
describing the outcome of each successive `rename` invocation (`renames
0` is the first attempt, `renames 1` the retry): write the temp file,
attempt the move; on a retryable failure delete the destination and
retry exactly once, propagating a second failure; on any other failure
propagate immediately. -/
def writeStateToDisk (state : QwenLocalQuotaStateFileV1)
    (renames : Nat → MoveOutcome) : WriteEffects :=
  match renames 0 with
  | .ok => ⟨1, false, some state, .ok ()⟩
  | .err code =>
    if retryableCode code then
      match renames 1 with
      | .ok => ⟨2, true, some state, .ok ()⟩
      | .err c2 => ⟨2, true, none, .error c2⟩
    else ⟨1, false, none, .error code⟩

/-- Embeds `recordQwenCompletion({atMs})`: read (here: the already-loaded
state), apply reset/prune, increment `dayCount`, append the timestamp
respecting the length cap, persist via `writeStateToDisk`.  Returns the
write effects together with the in-memory post-state the source returns. -/
def recordQwenCompletion (loaded : QwenLocalQuotaStateFileV1) (nowMs : Int)
    (renames : Nat → MoveOutcome) : WriteEffects × QwenLocalQuotaStateFileV1 :=
  let state := applyUtcResetAndPrune loaded nowMs
  let next : QwenLocalQuotaStateFileV1 :=
    { state with
      dayCount := state.dayCount + 1
      recent := jsSliceLast MAX_RECENT_TIMESTAMPS (state.recent ++ [nowMs])
      updatedAt := nowMs }
  (writeStateToDisk next renames, next)

theorem jsSliceLast_length_le (l : List α) (n : Nat) : (jsSliceLast n l).length ≤ n := by
  unfold jsSliceLast
  rw [List.length_drop]
  omega

theorem jsSliceLast_of_le (l : List α) (n : Nat) (h : l.length ≤ n) :
    jsSliceLast n l = l := by
  unfold jsSliceLast
  rw [Nat.sub_eq_zero_of_le h, List.drop_zero]

theorem jsSliceLast_suffix (l : List α) (n : Nat) : jsSliceLast n l <:+ l :=
  List.drop_suffix _ _

theorem mem_jsSliceLast (l : List α) (n : Nat) (a : α) (h : a ∈ jsSliceLast n l) :
    a ∈ l :=
  (jsSliceLast_suffix l n).subset h

theorem applyUtcResetAndPrune_eq (s : QwenLocalQuotaStateFileV1) (nowMs : Int) :
    applyUtcResetAndPrune s nowMs
      = ⟨1, utcDayKey nowMs,
          if s.utcDay ≠ utcDayKey nowMs then 0 else s.dayCount,
          jsSliceLast MAX_RECENT_TIMESTAMPS (s.recent.filter (inWindow nowMs)),
          nowMs⟩ := by
  by_cases h : s.utcDay ≠ utcDayKey nowMs <;> simp [applyUtcResetAndPrune, h]

theorem filter_jsSliceLast (p : α → Bool) (l : List α) (n : Nat) :
    (jsSliceLast n (l.filter p)).filter p = jsSliceLast n (l.filter p) := by
  apply List.filter_eq_self.mpr
  intro a ha
  exact (List.mem_filter.mp (mem_jsSliceLast _ _ _ ha)).2

set_option maxRecDepth 8000

/-- C3: `applyUtcResetAndPrune(s, nowMs)` keeps in `recent` exactly the
timestamps of `s.recent` inside the inclusive window
`[nowMs - RPM_WINDOW_MS, nowMs]`, capped at `MAX_RECENT_TIMESTAMPS`
entries evicting oldest first (the result is a suffix of the filtered
list); it resets `dayCount` to 0 exactly when `s.utcDay` differs from the
UTC calendar day of `nowMs` and preserves it otherwise; and it is
idempotent at a fixed `nowMs`. -/
theorem applyResetAndPrune_prunes_resets_idempotent
    (s : QwenLocalQuotaStateFileV1) (nowMs : Int) :
    (applyUtcResetAndPrune s nowMs).recent
      = jsSliceLast MAX_RECENT_TIMESTAMPS (s.recent.filter (inWindow nowMs)) ∧
    (applyUtcResetAndPrune s nowMs).recent.length ≤ MAX_RECENT_TIMESTAMPS ∧
    (applyUtcResetAndPrune s nowMs).recent <:+ s.recent.filter (inWindow nowMs) ∧
    (∀ ts ∈ (applyUtcResetAndPrune s nowMs).recent,
      ts ∈ s.recent ∧ nowMs - RPM_WINDOW_MS ≤ ts ∧ ts ≤ nowMs) ∧
    (applyUtcResetAndPrune s nowMs).dayCount
      = (if s.utcDay ≠ utcDayKey nowMs then 0 else s.dayCount) ∧
    applyUtcResetAndPrune (applyUtcResetAndPrune s nowMs) nowMs
      = applyUtcResetAndPrune s nowMs := by
  have he := applyUtcResetAndPrune_eq s nowMs
  refine ⟨by rw [he], ?_, ?_, ?_, by rw [he], ?_⟩
  · rw [he]
    exact jsSliceLast_length_le _ _
  · rw [he]
    exact jsSliceLast_suffix _ _
  · intro ts hts
    rw [he] at hts
    have hmem := mem_jsSliceLast _ _ _ hts
    have hf := List.mem_filter.mp hmem
    have hw : inWindow nowMs ts = true := hf.2
    simp only [inWindow, Bool.and_eq_true, decide_eq_true_eq] at hw
    exact ⟨hf.1, hw.1, hw.2⟩
  · have hfil := filter_jsSliceLast (inWindow nowMs) s.recent MAX_RECENT_TIMESTAMPS
    have hlen := jsSliceLast_length_le (s.recent.filter (inWindow nowMs))
      MAX_RECENT_TIMESTAMPS
    rw [he, applyUtcResetAndPrune_eq]
    dsimp only
    rw [hfil, jsSliceLast_of_le _ _ hlen, if_neg (not_not_intro rfl)]

/-- Closed witness for C3 at the spec's day-rollover vector: stored day
2026-02-23, pruning and reset at 2026-02-24T00:00:10Z. -/
theorem applyResetAndPrune_prunes_resets_idempotent_witness :
    (applyUtcResetAndPrune ⟨1, "2026-02-23", 42, [1771891200000], 1771891150000⟩
        1771891210000).dayCount
      = (if ("2026-02-23" : String) ≠ utcDayKey 1771891210000 then 0 else 42) ∧
    applyUtcResetAndPrune
        (applyUtcResetAndPrune ⟨1, "2026-02-23", 42, [1771891200000], 1771891150000⟩
          1771891210000) 1771891210000
      = applyUtcResetAndPrune ⟨1, "2026-02-23", 42, [1771891200000], 1771891150000⟩
          1771891210000 :=
  ⟨(applyResetAndPrune_prunes_resets_idempotent
      ⟨1, "2026-02-23", 42, [1771891200000], 1771891150000⟩ 1771891210000).2.2.2.2.1,
   (applyResetAndPrune_prunes_resets_idempotent
      ⟨1, "2026-02-23", 42, [1771891200000], 1771891150000⟩ 1771891210000).2.2.2.2.2⟩

/-- C2: in `recordQwenCompletion`, a first move failing with a retryable
code (EPERM/EEXIST/EACCES/ENOTEMPTY) deletes the destination and retries
the move exactly once, so on a successful retry the move primitive ran
exactly twice and the persisted state is the intended post-increment
state (`dayCount` = pruned `dayCount` + 1); a first failure with any
other code propagates after one move; a failing retry propagates its
error after two moves. -/
theorem recordCompletion_move_retry
    (loaded : QwenLocalQuotaStateFileV1) (nowMs : Int)
    (renames : Nat → MoveOutcome) (code c2 : String) :
    (renames 0 = .err code → retryableCode code = true → renames 1 = .ok →
      (recordQwenCompletion loaded nowMs renames).1.moveCalls = 2 ∧
      (recordQwenCompletion loaded nowMs renames).1.destDeleted = true ∧
      (recordQwenCompletion loaded nowMs renames).1.result = .ok () ∧
      (recordQwenCompletion loaded nowMs renames).1.persisted
        = some (recordQwenCompletion loaded nowMs renames).2 ∧
      (recordQwenCompletion loaded nowMs renames).2.dayCount
        = (applyUtcResetAndPrune loaded nowMs).dayCount + 1) ∧
    (renames 0 = .err code → retryableCode code = false →
      (recordQwenCompletion loaded nowMs renames).1.moveCalls = 1 ∧
      (recordQwenCompletion loaded nowMs renames).1.destDeleted = false ∧
      (recordQwenCompletion loaded nowMs renames).1.result = .error code) ∧
    (renames 0 = .err code → retryableCode code = true → renames 1 = .err c2 →
      (recordQwenCompletion loaded nowMs renames).1.moveCalls = 2 ∧
      (recordQwenCompletion loaded nowMs renames).1.result = .error c2) := by
  refine ⟨?_, ?_, ?_⟩
  · intro h0 hr h1
    simp [recordQwenCompletion, writeStateToDisk, h0, hr, h1]
  · intro h0 hr
    simp [recordQwenCompletion, writeStateToDisk, h0, hr]
  · intro h0 hr h1
    simp [recordQwenCompletion, writeStateToDisk, h0, hr, h1]

/-- Closed witness for C2: first move fails with EPERM, retry succeeds;
the move ran twice and the persisted `dayCount` is the post-increment
value (spec test vector: prior `dayCount` 3 → persisted 4). -/
theorem recordCompletion_move_retry_witness :
    ((fun n => if n = 0 then MoveOutcome.err "EPERM" else .ok) 0
        = MoveOutcome.err "EPERM") ∧
    retryableCode "EPERM" = true ∧
    ((fun n => if n = 0 then MoveOutcome.err "EPERM" else .ok) 1 = MoveOutcome.ok) ∧
    ((recordQwenCompletion ⟨1, "2026-02-24", 3, [1771934380000], 1771934380000⟩
        1771934400000 (fun n => if n = 0 then .err "EPERM" else .ok)).1.moveCalls = 2 ∧
      (recordQwenCompletion ⟨1, "2026-02-24", 3, [1771934380000], 1771934380000⟩
        1771934400000 (fun n => if n = 0 then .err "EPERM" else .ok)).1.destDeleted = true ∧
      (recordQwenCompletion ⟨1, "2026-02-24", 3, [1771934380000], 1771934380000⟩
        1771934400000 (fun n => if n = 0 then .err "EPERM" else .ok)).1.result = .ok () ∧
      (recordQwenCompletion ⟨1, "2026-02-24", 3, [1771934380000], 1771934380000⟩
        1771934400000 (fun n => if n = 0 then .err "EPERM" else .ok)).1.persisted
        = some (recordQwenCompletion ⟨1, "2026-02-24", 3, [1771934380000], 1771934380000⟩
            1771934400000 (fun n => if n = 0 then .err "EPERM" else .ok)).2 ∧
      (recordQwenCompletion ⟨1, "2026-02-24", 3, [1771934380000], 1771934380000⟩
        1771934400000 (fun n => if n = 0 then .err "EPERM" else .ok)).2.dayCount
        = (applyUtcResetAndPrune ⟨1, "2026-02-24", 3, [1771934380000], 1771934380000⟩
            1771934400000).dayCount + 1) :=
  ⟨rfl, by decide, rfl,
    (recordCompletion_move_retry ⟨1, "2026-02-24", 3, [1771934380000], 1771934380000⟩
      1771934400000 (fun n => if n = 0 then .err "EPERM" else .ok) "EPERM" "X").1
      rfl (by decide) rfl⟩

/-- The claim's percent formula:
`clamp(0, 100, round(100 * (limit - used) / limit))`, degenerating to 0
when `limit ≤ 0`.  Stated independently of the source's
`toPercentRemaining` (which multiplies by 100 on the right) to compare
the two. -/
def percentRemainingSpec (limit used : Int) : Int :=
  if limit ≤ 0 then 0
  else max 0 (min 100 ⌊100 * ((limit : Rat) - (used : Rat)) / (limit : Rat) + 1 / 2⌋)

theorem foldl_min_le_init (ts : List Int) : ∀ t : Int, ts.foldl min t ≤ t := by
  induction ts with
  | nil => intro t; simp
  | cons a ts ih =>
    intro t
    exact le_trans (ih (min t a)) (min_le_left t a)

theorem foldl_min_le_mem (ts : List Int) : ∀ t x, x ∈ ts → ts.foldl min t ≤ x := by
  induction ts with
  | nil => intro t x hx; cases hx
  | cons a ts ih =>
    intro t x hx
    cases hx with
    | head => exact le_trans (foldl_min_le_init ts (min t a)) (min_le_right t a)
    | tail _ hx => exact ih (min t a) x hx

theorem foldl_min_mem (ts : List Int) : ∀ t, ts.foldl min t = t ∨ ts.foldl min t ∈ ts := by
  induction ts with
  | nil => intro t; left; rfl
  | cons a ts ih =>
    intro t
    rcases ih (min t a) with h | h
    · rcases min_cases t a with ⟨hm, _⟩ | ⟨hm, _⟩
      · left
        simp only [List.foldl]
        rw [h, hm]
      · right
        simp only [List.foldl]
        rw [h, hm]
        exact List.mem_cons_self a ts
    · right
      exact List.mem_cons_of_mem a h

theorem listMin_spec (l : List Int) (m : Int) (h : listMin l = some m) :
    m ∈ l ∧ ∀ x ∈ l, m ≤ x := by
  cases l with
  | nil => cases h
  | cons t ts =>
    have hm : ts.foldl min t = m := by
      simpa [listMin] using h
    constructor
    · rcases foldl_min_mem ts t with h' | h'
      · rw [← hm, h']
        exact List.mem_cons_self t ts
      · rw [← hm]
        exact List.mem_cons_of_mem t h'
    · intro x hx
      cases hx with
      | head => rw [← hm]; exact foldl_min_le_init ts t
      | tail _ hx => rw [← hm]; exact foldl_min_le_mem ts t x hx

theorem toPercentRemaining_spec_eq (used limit : Int) :
    toPercentRemaining used limit = percentRemainingSpec limit used := by
  unfold toPercentRemaining percentRemainingSpec clampPercent jsRound
  by_cases h : limit ≤ 0
  · simp [h]
  · simp only [h, if_false]
    have harg : ((limit : Rat) - (used : Rat)) / (limit : Rat) * 100
        = 100 * ((limit : Rat) - (used : Rat)) / (limit : Rat) := by
      ring
    rw [harg]

/-- C4: `computeQwenQuota` computes `percentRemaining` for the day and
rolling-window dimensions independently as
`clamp(0, 100, round(100 * (limit - used) / limit))` (0 when the limit is
non-positive); the day reset time is always present and equals the next
UTC midnight strictly after `nowMs` (the unique day-aligned instant in
`(nowMs, nowMs + 1 day]`); the rolling-window reset time is the oldest
surviving `recent` timestamp plus the window length, and is absent
exactly when the pruned `recent` list is empty.  The spec's concrete
vector: `recent = [now-61000, now-30000, now-1000]`, window 60000 ms
gives `rpm.used = 2` and `rpm.percentRemaining = 97` at limit 60. -/
theorem computeQuota_percents_and_resets :
    (∀ (state : QwenLocalQuotaStateFileV1) (nowMs dayLimit rpmLimit : Int),
      (computeQwenQuota state nowMs dayLimit rpmLimit).day.percentRemaining
        = percentRemainingSpec dayLimit
            (computeQwenQuota state nowMs dayLimit rpmLimit).day.used ∧
      (computeQwenQuota state nowMs dayLimit rpmLimit).rpm.percentRemaining
        = percentRemainingSpec rpmLimit
            (computeQwenQuota state nowMs dayLimit rpmLimit).rpm.used ∧
      (computeQwenQuota state nowMs dayLimit rpmLimit).day.resetTimeIso
        = isoOfMs (nextUtcMidnightMs nowMs) ∧
      nowMs < nextUtcMidnightMs nowMs ∧
      nextUtcMidnightMs nowMs % msPerDay = 0 ∧
      nextUtcMidnightMs nowMs ≤ nowMs + msPerDay ∧
      ((applyUtcResetAndPrune state nowMs).recent = [] →
        (computeQwenQuota state nowMs dayLimit rpmLimit).rpm.resetTimeIso = none) ∧
      (∀ oldest : Int,
        listMin (applyUtcResetAndPrune state nowMs).recent = some oldest →
        (computeQwenQuota state nowMs dayLimit rpmLimit).rpm.resetTimeIso
          = some (isoOfMs (oldest + RPM_WINDOW_MS)) ∧
        oldest ∈ (applyUtcResetAndPrune state nowMs).recent ∧
        ∀ ts ∈ (applyUtcResetAndPrune state nowMs).recent, oldest ≤ ts)) ∧
    ((computeQwenQuota ⟨1, "2026-02-24", 50,
        [1771934339000, 1771934370000, 1771934399000], 1771934400000⟩
        1771934400000 1000 60).rpm.used = 2 ∧
      (computeQwenQuota ⟨1, "2026-02-24", 50,
        [1771934339000, 1771934370000, 1771934399000], 1771934400000⟩
        1771934400000 1000 60).rpm.percentRemaining = 97) := by
  constructor
  · intro state nowMs dayLimit rpmLimit
    refine ⟨toPercentRemaining_spec_eq _ _, toPercentRemaining_spec_eq _ _, rfl,
      ?_, ?_, ?_, ?_, ?_⟩
    · unfold nextUtcMidnightMs msPerDay
      omega
    · unfold nextUtcMidnightMs msPerDay
      omega
    · unfold nextUtcMidnightMs msPerDay
      omega
    · intro h
      show (listMin (applyUtcResetAndPrune state nowMs).recent).map _ = none
      rw [h]
      rfl
    · intro oldest h
      refine ⟨?_, (listMin_spec _ _ h).1, (listMin_spec _ _ h).2⟩
      show (listMin (applyUtcResetAndPrune state nowMs).recent).map _ = _
      rw [h]
      rfl
  · constructor
    · decide
    · have hst : applyUtcResetAndPrune ⟨1, "2026-02-24", 50,
          [1771934339000, 1771934370000, 1771934399000], 1771934400000⟩ 1771934400000
          = ⟨1, "2026-02-24", 50, [1771934370000, 1771934399000], 1771934400000⟩ := by
        decide
      have hq : (computeQwenQuota ⟨1, "2026-02-24", 50,
          [1771934339000, 1771934370000, 1771934399000], 1771934400000⟩
          1771934400000 1000 60).rpm.percentRemaining
          = toPercentRemaining 2 60 := by
        simp [computeQwenQuota, hst]
      rw [hq]
      norm_num [toPercentRemaining, clampPercent, jsRound]

/-- Closed witness for C4: the rolling-window reset time at the spec's
concrete vector is the oldest surviving timestamp plus 60000 ms, and the
concrete percentages hold. -/
theorem computeQuota_percents_and_resets_witness :
    ((computeQwenQuota ⟨1, "2026-02-24", 50,
        [1771934339000, 1771934370000, 1771934399000], 1771934400000⟩
        1771934400000 1000 60).rpm.resetTimeIso
      = some (isoOfMs (1771934370000 + RPM_WINDOW_MS)) ∧
      (1771934370000 : Int) ∈ (applyUtcResetAndPrune ⟨1, "2026-02-24", 50,
        [1771934339000, 1771934370000, 1771934399000], 1771934400000⟩
        1771934400000).recent ∧
      ∀ ts ∈ (applyUtcResetAndPrune ⟨1, "2026-02-24", 50,
        [1771934339000, 1771934370000, 1771934399000], 1771934400000⟩
        1771934400000).recent, (1771934370000 : Int) ≤ ts) ∧
    ((computeQwenQuota ⟨1, "2026-02-24", 50,
        [1771934339000, 1771934370000, 1771934399000], 1771934400000⟩
        1771934400000 1000 60).rpm.used = 2 ∧
      (computeQwenQuota ⟨1, "2026-02-24", 50,
        [1771934339000, 1771934370000, 1771934399000], 1771934400000⟩
        1771934400000 1000 60).rpm.percentRemaining = 97) :=
  ⟨(computeQuota_percents_and_resets.1 ⟨1, "2026-02-24", 50,
      [1771934339000, 1771934370000, 1771934399000], 1771934400000⟩
      1771934400000 1000 60).2.2.2.2.2.2.2 1771934370000 (by decide),
    computeQuota_percents_and_resets.2⟩

end Qwen

namespace Store

/-- A JSON field value as far as the role checks can distinguish it: a
string, or anything else. -/
inductive JsonPrim where
  | str (s : String)
  | other
deriving Repr, DecidableEq

/-- A message payload that decoded to a JSON object; `role` may be absent
or a non-string value. -/
structure Payload where
  role : Option JsonPrim
  providerID : Option String
  modelID : Option String
deriving Repr, DecidableEq

/-- The stored `data` text of a message row, as the two decoders see it:
malformed JSON (`JSON.parse` throws; SQLite's `json_extract` raises a
"malformed JSON" error), valid JSON that is not an object, or a JSON
object. -/
inductive RowData where
  | malformed
  | nonObject
  | obj (p : Payload)
deriving Repr, DecidableEq

/-- A row of the `message` table (`MessageRow` in `opencode-db.ts`). -/
structure MessageRow where
  id : String
  session_id : String
  time_created : Int
  data : RowData
deriving Repr, DecidableEq

/-- Embeds `SessionNotFoundError{sessionID, checkedPath}`. -/
structure SessionNotFound where
  sessionID : String
  checkedPath : String
deriving Repr, DecidableEq

/-- The decoded message shape relevant to the iteration results. -/
structure OpenCodeMessage where
  id : String
  sessionID : String
  role : String
deriving Repr, DecidableEq

/-- The store environment: candidate db paths paired with whether they
exist, and the reachable database's content (rows in query order). -/
structure StoreEnv where
  candidates : List (String × Bool)
  sessions : List String
  messages : List MessageRow

/-- Modelled from the spec: `pickFirstExistingPath` (`path-pick.ts` is
not among the sources).  §4.1 `locateStore()`: given a prioritized list
of candidate file paths, return the first that exists, or the
"(store unavailable)" marker (§4.1's
`SessionNotFound{..., checkedPath="(store unavailable)"}`). -/
def pickFirstExistingPath (cands : List (String × Bool)) : String :=
  match cands.find? (fun c => c.2) with
  | some c => c.1
  | none => "(store unavailable)"

/-- Embeds `getOpenCodeDbPath()`. -/
def getOpenCodeDbPath (env : StoreEnv) : String :=
  pickFirstExistingPath env.candidates

/-- Embeds `openDbOrNull()`: the reachable db path, or `none` when no
candidate path exists. -/
def openDbOrNull (env : StoreEnv) : Option String :=
  (env.candidates.find? (fun c => c.2)).map (fun c => c.1)

/-- Embeds `validateSessionIdOrThrow`'s check
`sessionID.startsWith("ses_")`, written over the character list. -/
def validSessionId (sessionID : String) : Bool :=
  decide (sessionID.data.take 4 = "ses_".data)

/-- Embeds `normalizeString(payload.role) ?? "unknown"`. -/
def normalizeRole (p : Payload) : String :=
  match p.role with
  | some (.str s) => s
  | _ => "unknown"

/-- Embeds `mapRowToOpenCodeMessage` (restricted to the fields the claims
touch): `null` when `safeJsonParse` fails or the payload is not an
object. -/
def mapRowToOpenCodeMessage (row : MessageRow) : Option OpenCodeMessage :=
  match row.data with
  | .obj payload => some ⟨row.id, row.session_id, normalizeRole payload⟩
  | _ => none

/-- The decode-and-filter loop shared by `iterAssistantMessages` and
`iterAssistantMessagesForSession`: drop rows that fail to decode or whose
lowercased role is not "assistant". -/
def decodeAssistantRows (rows : List MessageRow) : List OpenCodeMessage :=
  rows.filterMap fun row =>
    match mapRowToOpenCodeMessage row with
    | none => none
    | some msg => if msg.role.toLower == "assistant" then some msg else none

/-- The rows `buildMessageQuery` returns for a session filter
(`WHERE session_id = ?`, in the stored query order). -/
def rowsForSession (env : StoreEnv) (sessionID : String) : List MessageRow :=
  env.messages.filter fun r => r.session_id == sessionID

/-- Embeds `iterAssistantMessagesForSession({sessionID})`: validate the
id format, then locate the store, then check the session row, then run
the message query.  The second component counts the store queries
executed (session-existence probe and message query), so 0 means the
call performed no store I/O. -/
def iterAssistantMessagesForSession (env : StoreEnv) (sessionID : String) :
    Except SessionNotFound (List OpenCodeMessage) × Nat :=
  if validSessionId sessionID then
    match openDbOrNull env with
    | none => (.error ⟨sessionID, getOpenCodeDbPath env⟩, 0)
    | some dbPath =>
      if sessionID ∈ env.sessions then
        (.ok (decodeAssistantRows (rowsForSession env sessionID)), 2)
      else
        (.error ⟨sessionID, dbPath⟩, 1)
  else
    (.error ⟨sessionID, "(invalid session ID format)"⟩, 0)

/-- The stats record returned by `getOpenCodeDbStats`. -/
structure OpenCodeDbStats where
  dbPath : String
  sessionCount : Nat
  messageCount : Nat
  assistantMessageCount : Nat
deriving Repr, DecidableEq

/-- SQLite `json_extract(data, '$.role')` on one row's stored text: the
role field of a JSON object, NULL for valid non-object JSON or an absent
field, and a raised "malformed JSON" error on text that does not parse. -/
def jsonExtractRole (data : RowData) : Except String (Option JsonPrim) :=
  match data with
  | .malformed => .error "malformed JSON"
  | .nonObject => .ok none
  | .obj p => .ok p.role

/-- The native path of `getOpenCodeDbStats`: the count query
`WHERE json_extract(data, '$.role') = 'assistant'` scans every row, and a
raised `json_extract` error aborts the whole query (nothing in
`getOpenCodeDbStats` catches it). -/
def nativeAssistantCount : List MessageRow → Except String Nat
  | [] => .ok 0
  | r :: rest =>
    match jsonExtractRole r.data with
    | .error e => .error e
    | .ok role? =>
      match nativeAssistantCount rest with
      | .error e => .error e
      | .ok n => .ok (if role? == some (.str "assistant") then n + 1 else n)

/-- The fallback path of `getOpenCodeDbStats`: scan every row,
`safeJsonParse` its payload (null on malformed text, so the row is
skipped), count those whose `role` field is the string "assistant". -/
def fallbackAssistantCount (rows : List MessageRow) : Nat :=
  rows.countP fun r =>
    match r.data with
    | .obj payload => payload.role == some (.str "assistant")
    | _ => false

/-- Embeds `getOpenCodeDbStats()`; the Boolean is the cached result of
the one-time `hasJsonExtract` canary probe selecting the native or the
fallback counting path.  A raised native-query error propagates to the
caller. -/
def getOpenCodeDbStats (env : StoreEnv) (canJsonExtract : Bool) :
    Except String OpenCodeDbStats :=
  match openDbOrNull env with
  | none => .ok ⟨getOpenCodeDbPath env, 0, 0, 0⟩
  | some dbPath =>
    if canJsonExtract then
      match nativeAssistantCount env.messages with
      | .error e => .error e
      | .ok n => .ok ⟨dbPath, env.sessions.length, env.messages.length, n⟩
    else
      .ok ⟨dbPath, env.sessions.length, env.messages.length,
        fallbackAssistantCount env.messages⟩

/-- C5: `iterAssistantMessagesForSession` validates the id format first:
a malformed id (missing the "ses_" marker) fails with `SessionNotFound`
at zero store queries and the result does not depend on the store at
all; when no store file is available the failure carries
`checkedPath = "(store unavailable)"`; when the store is reachable but
the session row is absent the failure carries the store path. -/
theorem sessionLookup_error_contract (env : StoreEnv) (sessionID : String) :
    (validSessionId sessionID = false →
      iterAssistantMessagesForSession env sessionID
        = (.error ⟨sessionID, "(invalid session ID format)"⟩, 0) ∧
      ∀ env' : StoreEnv, iterAssistantMessagesForSession env' sessionID
        = iterAssistantMessagesForSession env sessionID) ∧
    (validSessionId sessionID = true →
      (∀ c ∈ env.candidates, c.2 = false) →
      iterAssistantMessagesForSession env sessionID
        = (.error ⟨sessionID, "(store unavailable)"⟩, 0)) ∧
    (∀ dbPath : String, validSessionId sessionID = true →
      openDbOrNull env = some dbPath → sessionID ∉ env.sessions →
      iterAssistantMessagesForSession env sessionID
        = (.error ⟨sessionID, dbPath⟩, 1)) := by
  refine ⟨?_, ?_, ?_⟩
  · intro h
    constructor
    · simp [iterAssistantMessagesForSession, h]
    · intro env'
      simp [iterAssistantMessagesForSession, h]
  · intro h hnone
    have hfind : env.candidates.find? (fun c => c.2) = none := by
      rw [List.find?_eq_none]
      intro c hc
      simp [hnone c hc]
    simp [iterAssistantMessagesForSession, h, openDbOrNull, hfind,
      getOpenCodeDbPath, pickFirstExistingPath]
  · intro dbPath h hopen hmem
    simp [iterAssistantMessagesForSession, h, hopen, hmem]

/-- Closed witness for C5: a malformed id fails without touching the
store; with no existing candidate path a well-formed id fails with the
"(store unavailable)" marker; with a reachable store and a missing
session row the failure carries the db path. -/
theorem sessionLookup_error_contract_witness :
    (validSessionId "bad-id" = false ∧
      iterAssistantMessagesForSession ⟨[("/db", true)], ["ses_a"], []⟩ "bad-id"
        = (.error ⟨"bad-id", "(invalid session ID format)"⟩, 0)) ∧
    (validSessionId "ses_a" = true ∧
      iterAssistantMessagesForSession ⟨[("/db", false)], [], []⟩ "ses_a"
        = (.error ⟨"ses_a", "(store unavailable)"⟩, 0)) ∧
    (iterAssistantMessagesForSession ⟨[("/db", true)], ["ses_a"], []⟩ "ses_b"
      = (.error ⟨"ses_b", "/db"⟩, 1)) :=
  ⟨⟨by decide,
    ((sessionLookup_error_contract ⟨[("/db", true)], ["ses_a"], []⟩ "bad-id").1
      (by decide)).1⟩,
   ⟨by decide,
    (sessionLookup_error_contract ⟨[("/db", false)], [], []⟩ "ses_a").2.1
      (by decide) (by decide)⟩,
   (sessionLookup_error_contract ⟨[("/db", true)], ["ses_a"], []⟩ "ses_b").2.2
      "/db" (by decide) rfl (by decide)⟩

theorem nativeAssistantCount_ok (rows : List MessageRow)
    (h : ∀ r ∈ rows, r.data ≠ .malformed) :
    nativeAssistantCount rows = .ok (fallbackAssistantCount rows) := by
  induction rows with
  | nil => rfl
  | cons r rest ih =>
    have hr : r.data ≠ .malformed := h r (List.mem_cons_self r rest)
    have hrest : ∀ x ∈ rest, x.data ≠ .malformed :=
      fun x hx => h x (List.mem_cons_of_mem r hx)
    cases hd : r.data with
    | malformed => exact absurd hd hr
    | nonObject =>
      simp [nativeAssistantCount, jsonExtractRole, hd, ih hrest,
        fallbackAssistantCount, List.countP_cons]
    | obj p =>
      simp only [nativeAssistantCount, jsonExtractRole, hd, ih hrest,
        fallbackAssistantCount, List.countP_cons]
      by_cases hp : p.role == some (.str "assistant")
      · simp [hp]
      · simp [hp]

/-- Counterexample to C9 as stated: on a store holding one message row
whose payload is malformed JSON, the native `json_extract` path raises
(SQLite errors on malformed JSON and `getOpenCodeDbStats` catches
nothing) while the fallback scan skips the row and returns counts — the
two paths are not equivalent for every store content. -/
theorem getStats_paths_counterexample :
    getOpenCodeDbStats ⟨[("/db", true)], ["ses_a"], [⟨"msg_1", "ses_a", 0, .malformed⟩]⟩
        true
      = .error "malformed JSON" ∧
    getOpenCodeDbStats ⟨[("/db", true)], ["ses_a"], [⟨"msg_1", "ses_a", 0, .malformed⟩]⟩
        false
      = .ok ⟨"/db", 1, 1, 0⟩ ∧
    ¬ getOpenCodeDbStats ⟨[("/db", true)], ["ses_a"], [⟨"msg_1", "ses_a", 0, .malformed⟩]⟩
          true
        = getOpenCodeDbStats ⟨[("/db", true)], ["ses_a"], [⟨"msg_1", "ses_a", 0, .malformed⟩]⟩
          false := by
  refine ⟨rfl, rfl, ?_⟩
  intro h
  have h' : (Except.error "malformed JSON" : Except String OpenCodeDbStats)
      = .ok ⟨"/db", 1, 1, 0⟩ := h
  exact Except.noConfusion h'

/-- C9 (amended): `getOpenCodeDbStats` returns the same stats through the
native `json_extract` path and through the fallback scan-and-decode path
for every store content in which no message payload is malformed JSON;
on a malformed payload the native path raises while the fallback path
skips the row. -/
theorem getStats_paths_equivalent (env : StoreEnv) (b1 b2 : Bool)
    (h : ∀ r ∈ env.messages, r.data ≠ .malformed) :
    getOpenCodeDbStats env b1 = getOpenCodeDbStats env b2 := by
  unfold getOpenCodeDbStats
  cases openDbOrNull env with
  | none => rfl
  | some dbPath =>
    cases b1 <;> cases b2 <;> simp [nativeAssistantCount_ok env.messages h]

/-- Closed witness for the amended C9: a store with one object-payload
assistant row and one valid non-object row (nothing malformed) yields
identical stats on both paths. -/
theorem getStats_paths_equivalent_witness :
    (∀ r ∈ [(⟨"msg_1", "ses_a", 0,
          .obj ⟨some (.str "assistant"), none, none⟩⟩ : MessageRow),
        ⟨"msg_2", "ses_a", 1, .nonObject⟩],
      r.data ≠ RowData.malformed) ∧
    getOpenCodeDbStats ⟨[("/db", true)], ["ses_a"],
        [⟨"msg_1", "ses_a", 0, .obj ⟨some (.str "assistant"), none, none⟩⟩,
         ⟨"msg_2", "ses_a", 1, .nonObject⟩]⟩ true
      = getOpenCodeDbStats ⟨[("/db", true)], ["ses_a"],
        [⟨"msg_1", "ses_a", 0, .obj ⟨some (.str "assistant"), none, none⟩⟩,
         ⟨"msg_2", "ses_a", 1, .nonObject⟩]⟩ false :=
  ⟨by decide,
   getStats_paths_equivalent ⟨[("/db", true)], ["ses_a"],
      [⟨"msg_1", "ses_a", 0, .obj ⟨some (.str "assistant"), none, none⟩⟩,
       ⟨"msg_2", "ses_a", 1, .nonObject⟩]⟩ true false (by decide)⟩

end Store

namespace Agg

/-!
The UsageAggregator (`src/lib/quota-stats.ts`) is not among the sources;
everything in this namespace is modelled from the spec (§4.2 and §3):
stream assistant messages, classify each (providerID, modelID) against
the pricing lookup, add its tokens to the priced or unknown totals and to
every breakdown, count messages and distinct sessions, and track the
deduplicated unknown (provider, model) list.
-/

/-- Token buckets of a message (§3: absent buckets contribute 0). -/
structure Tokens where
  input : Nat
  output : Nat
  reasoning : Nat
  cache_read : Nat
  cache_write : Nat
deriving Repr, DecidableEq

/-- Componentwise sum of token buckets. -/
def Tokens.add (a b : Tokens) : Tokens :=
  ⟨a.input + b.input, a.output + b.output, a.reasoning + b.reasoning,
    a.cache_read + b.cache_read, a.cache_write + b.cache_write⟩

/-- The all-zero token bucket. -/
def Tokens.zero : Tokens := ⟨0, 0, 0, 0, 0⟩

theorem Tokens.add_zero' (a : Tokens) : a.add Tokens.zero = a := by
  cases a
  simp [Tokens.add, Tokens.zero]

theorem Tokens.zero_add' (a : Tokens) : Tokens.zero.add a = a := by
  cases a
  simp [Tokens.add, Tokens.zero]

theorem Tokens.add_assoc' (a b c : Tokens) : (a.add b).add c = a.add (b.add c) := by
  cases a; cases b; cases c
  simp only [Tokens.add, Tokens.mk.injEq]
  omega

theorem Tokens.add_right_comm' (a b c : Tokens) : (a.add b).add c = (a.add c).add b := by
  cases a; cases b; cases c
  simp only [Tokens.add, Tokens.mk.injEq]
  omega

/-- A breakdown entry: accumulated tokens, cost and message count for one
grouping key. -/
structure Bucket where
  tokens : Tokens
  costUsd : Rat
  messageCount : Nat
deriving Repr

/-- One assistant message as the aggregator consumes it. -/
structure AggMessage where
  sessionID : String
  providerID : String
  modelID : String
  tokens : Tokens
  costUsd : Rat
deriving Repr

/-- Modelled from the spec: the aggregation accumulator, which is also
the `AggregateResult` shape — `priced`/`unknown`/`costUsd`/
`messageCount` are the totals (`sessionCount = sessionIds.length`), the
four association lists are the breakdowns, `unknownPairs` the
deduplicated unknown (provider, model) list. -/
structure AggregateResult where
  priced : Tokens
  unknown : Tokens
  costUsd : Rat
  messageCount : Nat
  sessionIds : List String
  bySourceProvider : List (String × Bucket)
  bySourceModel : List ((String × String) × Bucket)
  byModel : List (String × Bucket)
  bySession : List (String × Bucket)
  unknownPairs : List (String × String)

/-- The empty aggregate. -/
def emptyAgg : AggregateResult :=
  ⟨Tokens.zero, Tokens.zero, 0, 0, [], [], [], [], [], []⟩

/-- Add one message's tokens/cost under a grouping key, creating the
entry when absent. -/
def bumpKey [DecidableEq κ] (k : κ) (t : Tokens) (cost : Rat) :
    List (κ × Bucket) → List (κ × Bucket)
  | [] => [(k, ⟨t, cost, 1⟩)]
  | (k', b) :: rest =>
    if k' = k then (k', ⟨b.tokens.add t, b.costUsd + cost, b.messageCount + 1⟩) :: rest
    else (k', b) :: bumpKey k t cost rest

/-- Insert a key into a deduplicated list. -/
def insertNew [DecidableEq κ] (k : κ) (l : List κ) : List κ :=
  if k ∈ l then l else k :: l

/-- Modelled from the spec: process one assistant message — classify it
against the pricing lookup (`true` = a rate is known), add its tokens to
the priced or unknown totals (cost only when priced), and add it to
every breakdown and the session/unknown bookkeeping. -/
def stepMessage (pricing : String → String → Bool) (acc : AggregateResult)
    (m : AggMessage) : AggregateResult :=
  let priced := pricing m.providerID m.modelID
  let cost : Rat := if priced then m.costUsd else 0
  { priced := if priced then acc.priced.add m.tokens else acc.priced
    unknown := if priced then acc.unknown else acc.unknown.add m.tokens
    costUsd := acc.costUsd + cost
    messageCount := acc.messageCount + 1
    sessionIds := insertNew m.sessionID acc.sessionIds
    bySourceProvider := bumpKey m.providerID m.tokens cost acc.bySourceProvider
    bySourceModel := bumpKey (m.providerID, m.modelID) m.tokens cost acc.bySourceModel
    byModel := bumpKey m.modelID m.tokens cost acc.byModel
    bySession := bumpKey m.sessionID m.tokens cost acc.bySession
    unknownPairs := if priced then acc.unknownPairs
      else insertNew (m.providerID, m.modelID) acc.unknownPairs }

/-- Modelled from the spec: `aggregateUsage` — stream the matching
assistant messages through `stepMessage`. -/
def aggregateUsage (pricing : String → String → Bool)
    (msgs : List AggMessage) : AggregateResult :=
  msgs.foldl (stepMessage pricing) emptyAgg

/-- Total tokens of a breakdown list. -/
def sumBuckets [DecidableEq κ] (l : List (κ × Bucket)) : Tokens :=
  l.foldr (fun kb acc => kb.2.tokens.add acc) Tokens.zero

theorem sumBuckets_bumpKey [DecidableEq κ] (k : κ) (t : Tokens) (cost : Rat)
    (l : List (κ × Bucket)) :
    sumBuckets (bumpKey k t cost l) = (sumBuckets l).add t := by
  induction l with
  | nil =>
    simp [bumpKey, sumBuckets, Tokens.add_zero', Tokens.zero_add']
  | cons hd rest ih =>
    obtain ⟨k', b⟩ := hd
    by_cases h : k' = k
    · simp only [bumpKey, if_pos h, sumBuckets, List.foldr]
      rw [Tokens.add_right_comm', Tokens.add_assoc']
    · simp only [bumpKey, if_neg h, sumBuckets, List.foldr]
      show (b.tokens.add (sumBuckets (bumpKey k t cost rest)))
        = ((b.tokens.add (sumBuckets rest)).add t)
      rw [ih, ← Tokens.add_assoc', Tokens.add_assoc']

/-- The cross-check invariant that every breakdown sums to
`priced + unknown`. -/
def sumsToTotals (acc : AggregateResult) : Prop :=
  sumBuckets acc.bySourceProvider = acc.priced.add acc.unknown ∧
  sumBuckets acc.bySourceModel = acc.priced.add acc.unknown ∧
  sumBuckets acc.byModel = acc.priced.add acc.unknown ∧
  sumBuckets acc.bySession = acc.priced.add acc.unknown

theorem stepMessage_preserves (pricing : String → String → Bool)
    (acc : AggregateResult) (m : AggMessage) (h : sumsToTotals acc) :
    sumsToTotals (stepMessage pricing acc m) := by
  obtain ⟨h1, h2, h3, h4⟩ := h
  have htot : (stepMessage pricing acc m).priced.add (stepMessage pricing acc m).unknown
      = (acc.priced.add acc.unknown).add m.tokens := by
    simp only [stepMessage]
    by_cases hp : pricing m.providerID m.modelID
    · simp only [hp, if_true]
      rw [Tokens.add_right_comm']
    · simp only [hp, Bool.false_eq_true, if_false]
      rw [Tokens.add_assoc']
  refine ⟨?_, ?_, ?_, ?_⟩
  · show sumBuckets (bumpKey m.providerID m.tokens _ acc.bySourceProvider) = _
    rw [sumBuckets_bumpKey, h1, htot]
  · show sumBuckets (bumpKey (m.providerID, m.modelID) m.tokens _ acc.bySourceModel) = _
    rw [sumBuckets_bumpKey, h2, htot]
  · show sumBuckets (bumpKey m.modelID m.tokens _ acc.byModel) = _
    rw [sumBuckets_bumpKey, h3, htot]
  · show sumBuckets (bumpKey m.sessionID m.tokens _ acc.bySession) = _
    rw [sumBuckets_bumpKey, h4, htot]

theorem foldl_preserves (pricing : String → String → Bool) (msgs : List AggMessage) :
    ∀ acc : AggregateResult, sumsToTotals acc →
      sumsToTotals (msgs.foldl (stepMessage pricing) acc) := by
  induction msgs with
  | nil => intro acc h; exact h
  | cons m msgs ih =>
    intro acc h
    exact ih (stepMessage pricing acc m) (stepMessage_preserves pricing acc m h)

/-- C6: in every `aggregateUsage` result, the tokens summed across
`bySourceModel` equal `totals.priced + totals.unknown`, and likewise for
every other breakdown list (`bySourceProvider`, `byModel`, `bySession`) —
the output sums back to the totals, so it can be rendered without
double-counting. -/
theorem aggregate_breakdowns_sum_to_totals (pricing : String → String → Bool)
    (msgs : List AggMessage) :
    sumBuckets (aggregateUsage pricing msgs).bySourceModel
      = (aggregateUsage pricing msgs).priced.add (aggregateUsage pricing msgs).unknown ∧
    sumBuckets (aggregateUsage pricing msgs).bySourceProvider
      = (aggregateUsage pricing msgs).priced.add (aggregateUsage pricing msgs).unknown ∧
    sumBuckets (aggregateUsage pricing msgs).byModel
      = (aggregateUsage pricing msgs).priced.add (aggregateUsage pricing msgs).unknown ∧
    sumBuckets (aggregateUsage pricing msgs).bySession
      = (aggregateUsage pricing msgs).priced.add (aggregateUsage pricing msgs).unknown := by
  have h := foldl_preserves pricing msgs emptyAgg
    ⟨by rfl, by rfl, by rfl, by rfl⟩
  exact ⟨h.2.1, h.1, h.2.2.1, h.2.2.2⟩

end Agg
